import Mathlib

/-!
Verification development for the Einburgerungbot repository
(`src/burgerbot.py`), a single-file Telegram bot that polls the Berlin
appointment-booking page, deduplicates slot identifiers against a
300-second cache, and fans notifications out to a persisted subscriber
list.

The shallow embedding below translates the methods of class `Bot`
into pure Lean functions over an explicit `BotState`:

* file I/O on `chats.json` is modelled at the JSON-value level: the
  file holds a list of integers (`store`), and `json.dump`/`json.load`
  of a list of integers round-trip that value; `writes` counts how
  many times the file was rewritten;
* the Telegram transport is modelled by an `outcome` oracle mapping a
  chat id to the result of `updater.bot.send_message` (success, an
  exception whose text contains "bot was blocked by the user", or any
  other exception);
* wall-clock reads (`time.time()`) are passed in as explicit `now`
  arguments; the host's local timezone (used by
  `datetime.fromtimestamp`) is an explicit fixed offset `tz` in
  seconds east of UTC;
* exceptions become `Option` results or dedicated constructors of the
  poll-cycle input type.
-/

namespace Burgerbot

/-- Source lines 21–24: `@dataclass class Message`, a cached
notification with the raw slot message and the epoch second at which
it was added to the cache. -/
structure Message where
  message : String
  ts : Int
deriving DecidableEq, Repr

/-- The mutable fields of class `Bot` (source lines 26–34) together
with the modelled external state: `chats` is `self.chats`, `store` is
the JSON value currently held by `chats.json`, `writes` counts
completed rewrites of that file, `cache` is `self.cache`, and
`proxyOn` is `self.proxy_on`. -/
structure BotState where
  chats : List Int
  store : List Int
  writes : Nat
  cache : List Message
  proxyOn : Bool
deriving DecidableEq, Repr

/-- Source lines 37–40, `Bot.__get_chats`: load `self.chats` from the
`chats.json` file (modelled as reading the stored JSON value). -/
def getChats (st : BotState) : BotState :=
  { st with chats := st.store }

/-- Source lines 42–45, `Bot.__persist_chats`: rewrite `chats.json`
in full with the current `self.chats` (modelled as storing the value
and counting one write). -/
def persistChats (st : BotState) : BotState :=
  { st with store := st.chats, writes := st.writes + 1 }

/-- Source lines 48–52, `Bot.__add_chat`: if `chat_id not in
self.chats`, append it and persist; otherwise do nothing. -/
def addChat (st : BotState) (chatId : Int) : BotState :=
  if chatId ∈ st.chats then st
  else persistChats { st with chats := st.chats ++ [chatId] }

/-- Source lines 54–57, `Bot.__remove_chat`: keep every chat that is
not equal to `chat_id`, then persist. -/
def removeChat (st : BotState) (chatId : Int) : BotState :=
  persistChats { st with chats := st.chats.filter (fun chat => chat != chatId) }

/-- Source lines 75–76, `Bot.__toggle_proxy`. -/
def toggleProxy (st : BotState) : BotState :=
  { st with proxyOn := !st.proxyOn }

/-- Source lines 126–130, `Bot.__msg_in_cache`: linear scan of
`self.cache` comparing the stored message strings to `msg`. -/
def msgInCache : List Message → String → Bool
  | [], _ => false
  | m :: rest, msg => if m.message = msg then true else msgInCache rest msg

/-- Source lines 132–133, `Bot.__add_msg_to_cache`: append a
`Message` stamped with the current time. -/
def addMsgToCache (cache : List Message) (msg : String) (now : Int) : List Message :=
  cache ++ [⟨msg, now⟩]

/-- Source lines 135–139, `Bot.__clear_cache`: when the cache is
non-empty, keep exactly the entries strictly younger than 300
seconds.  (The emptiness guard only skips a log line; the filter of
an empty list is empty either way.) -/
def clearCache (cache : List Message) (now : Int) : List Message :=
  if cache.length > 0 then cache.filter (fun m => now - m.ts < 300) else cache

/-- Python `str.split('/')` on the character list of a string: split
at every `'/'`, keeping empty segments, so that the result is always
non-empty. -/
def splitSlash : List Char → List (List Char)
  | [] => [[]]
  | c :: rest =>
    let r := splitSlash rest
    if c = '/' then [] :: r
    else
      match r with
      | [] => [[c]]
      | h :: t => (c :: h) :: t

/-- The numeric value of an ASCII decimal digit, `none` otherwise. -/
def digitVal (c : Char) : Option Nat :=
  if '0' ≤ c ∧ c ≤ '9' then some (c.toNat - 48) else none

/-- Accumulate the decimal value of a digit string; `none` as soon as
a non-digit appears. -/
def parseDigitsAux (acc : Nat) : List Char → Option Nat
  | [] => some acc
  | c :: cs =>
    match digitVal c with
    | none => none
    | some d => parseDigitsAux (10 * acc + d) cs

/-- Python `int(s)` restricted to optionally-signed ASCII digit
strings (the shape every slot identifier segment takes); any other
input models the `ValueError` that `int` raises, as `none`.  (Python
additionally strips whitespace and allows `_` digit separators; no
claim depends on such inputs.) -/
def pyInt : List Char → Option Int
  | [] => none
  | '-' :: cs =>
    if cs.isEmpty then none
    else (parseDigitsAux 0 cs).map (fun n => -(n : Int))
  | '+' :: cs =>
    if cs.isEmpty then none
    else (parseDigitsAux 0 cs).map (fun n => (n : Int))
  | cs => (parseDigitsAux 0 cs).map (fun n => (n : Int))

/-- Gregorian civil date `(year, month, day)` of a day count relative
to 1970-01-01 (Howard Hinnant's `civil_from_days` algorithm, the
standard epoch-to-calendar conversion that `datetime` implements). -/
def civilFromDays (z : Int) : Int × Nat × Nat :=
  let zs := z + 719468
  let era := zs.fdiv 146097
  let doe := (zs - era * 146097).toNat
  let yoe := (doe - doe / 1460 + doe / 36524 - doe / 146096) / 365
  let doy := doe - (365 * yoe + yoe / 4 - yoe / 100)
  let mp := (5 * doy + 2) / 153
  let d := doy - (153 * mp + 2) / 5 + 1
  let m := if mp < 10 then mp + 3 else mp - 9
  let y := era * 400 + (yoe : Int)
  (if m ≤ 2 then y + 1 else y, m, d)

/-- English month names as produced by `strftime("%B")` in the
default C locale. -/
def monthName : Nat → String
  | 1 => "January"
  | 2 => "February"
  | 3 => "March"
  | 4 => "April"
  | 5 => "May"
  | 6 => "June"
  | 7 => "July"
  | 8 => "August"
  | 9 => "September"
  | 10 => "October"
  | 11 => "November"
  | 12 => "December"
  | _ => ""

/-- `strftime("%d")`: the day of the month, zero-padded to two
digits. -/
def dayStr (d : Nat) : String :=
  if d < 10 then "0" ++ toString d else toString d

/-- `strftime("%d %B")` applied to the UTC civil date of an epoch
second. -/
def strftimeDayMonth (ts : Int) : String :=
  let cd := civilFromDays (ts.fdiv 86400)
  dayStr cd.2.2 ++ " " ++ monthName cd.2.1

/-- Source lines 141–144, `Bot.__date_from_msg`: split the message on
`'/'`, read `msg_arr[len(msg_arr) - 2]` (for a single-segment split
the index is `-1`, i.e. Python wraps to the last — and only —
element, which Nat-truncated `length - 2 = 0` reproduces), convert it
with `int` (a failure is the `ValueError` the caller catches), add
7200 seconds, and format the instant with
`datetime.fromtimestamp(ts).strftime("%d %B")`.  `fromtimestamp`
renders the host's local time, modelled as the fixed offset `tz`
seconds east of UTC. -/
def dateFromMsg (tz : Int) (msg : String) : Option String :=
  let msgArr := splitSlash msg.data
  match pyInt (msgArr.getD (msgArr.length - 2) []) with
  | none => none
  | some n => some (strftimeDayMonth (n + 7200 + tz))

/-- The result of one `updater.bot.send_message` call (source line
118): success, an exception whose text contains
`'bot was blocked by the user'`, or any other exception. -/
inductive SendResult
  | ok
  | errBlocked
  | errOther
deriving DecidableEq, Repr

/-- Observable side effects of `Bot.__send_message`, in program
order: the cache append (line 113), each delivery attempt (line 118),
and each removal of a blocking chat (line 122). -/
inductive Action
  | cacheAdd (msg : String) (ts : Int)
  | attempt (chat : Int)
  | removed (chat : Int)
deriving DecidableEq, Repr

/-- Source lines 115–124, the `for c in self.chats` loop of
`Bot.__send_message`.  Python iterates over the list object bound to
`self.chats` when the loop starts; `__remove_chat` rebinds
`self.chats` to a fresh filtered list, so iteration still visits
every originally-listed chat.  `iter` is that frozen list, `st` the
evolving state; the returned trace records attempts and removals in
order. -/
def sendLoop (outcome : Int → SendResult) : List Int → BotState → BotState × List Action
  | [], st => (st, [])
  | c :: rest, st =>
    match outcome c with
    | SendResult.errBlocked =>
      let r := sendLoop outcome rest (removeChat st c)
      (r.1, Action.attempt c :: Action.removed c :: r.2)
    | _ =>
      let r := sendLoop outcome rest st
      (r.1, Action.attempt c :: r.2)

/-- Result of one `Bot.__send_message` call: the new state, the trace
of effects, and — when the fan-out loop was reached — the message
together with the frozen chat list it was addressed to. -/
structure SendOutput where
  state : BotState
  trace : List Action
  fanout : Option (String × List Int)
deriving DecidableEq, Repr

/-- Source lines 109–124, `Bot.__send_message`: return immediately
when `msg` is cached; otherwise append it to the cache (line 113),
derive the date for the message text (line 114 — a `ValueError` here
propagates to the per-slot handler, after the cache append), then
fan out to every chat. -/
def sendMessage (tz : Int) (outcome : Int → SendResult) (now : Int)
    (st : BotState) (msg : String) : SendOutput :=
  if msgInCache st.cache msg then ⟨st, [], none⟩
  else
    let st1 := { st with cache := addMsgToCache st.cache msg now }
    match dateFromMsg tz msg with
    | none => ⟨st1, [Action.cacheAdd msg now], none⟩
    | some _ =>
      let r := sendLoop outcome st1.chats st1
      ⟨r.1, Action.cacheAdd msg now :: r.2, some (msg, st1.chats)⟩

/-- One `td.buchbar` element of the fetched page as the slot loop
(source lines 91–96) sees it: either its anchor's `href` string, or
an element on which `slot.a['href']` (or the send) raises — the
per-slot `except` logs and moves on. -/
inductive SlotItem
  | good (href : String)
  | bad
deriving DecidableEq, Repr

/-- Source lines 91–96: process each slot in order, accumulating the
fan-outs that actually happened. -/
def processSlots (tz : Int) (outcome : Int → SendResult) (now : Int) :
    List SlotItem → BotState → BotState × List (String × List Int)
  | [], st => (st, [])
  | SlotItem.bad :: rest, st => processSlots tz outcome now rest st
  | SlotItem.good href :: rest, st =>
    let out := sendMessage tz outcome now st href
    let r := processSlots tz outcome now rest out.state
    (r.1, match out.fanout with
          | some f => f :: r.2
          | none => r.2)

/-- What one iteration of the `while True` body of `Bot.__parse`
(source lines 79–103) encounters: `fetchRaise` is an exception from
`__get_url`, `rateLimited` a 429 status, `parseRaise` an exception
from any other point of the `try` body outside the per-slot handler
(e.g. `BeautifulSoup`), and `page slots` a successfully fetched and
parsed page. -/
inductive CycleInput
  | fetchRaise
  | rateLimited
  | parseRaise
  | page (slots : List SlotItem)
deriving DecidableEq, Repr

/-- Observable effects of one iteration of `Bot.__parse`'s loop:
the sleeps performed (seconds, in order), how often the proxy flag
was toggled, whether the extractor (`BeautifulSoup`/`find_all`) ran
to completion, the notification fan-outs, and whether
`__clear_cache` ran. -/
structure CycleEffect where
  sleeps : List Nat
  toggles : Nat
  extracted : Bool
  fanouts : List (String × List Int)
  cleared : Bool
deriving DecidableEq, Repr

/-- One iteration of the `while True` loop of `Bot.__parse` (source
lines 79–103).  On a 429 the code logs, sleeps 300 s, toggles the
proxy and `continue`s — skipping the trailing `time.sleep(45)`.  On
any exception escaping the `try` body the `except` logs, toggles the
proxy, and falls through to the 45 s sleep.  On a normal page every
slot is processed, the cache is cleared, and the loop sleeps 45 s. -/
def parseCycle (tz : Int) (outcome : Int → SendResult) (now : Int)
    (input : CycleInput) (st : BotState) : BotState × CycleEffect :=
  match input with
  | CycleInput.fetchRaise => (toggleProxy st, ⟨[45], 1, false, [], false⟩)
  | CycleInput.rateLimited => (toggleProxy st, ⟨[300], 1, false, [], false⟩)
  | CycleInput.parseRaise => (toggleProxy st, ⟨[45], 1, false, [], false⟩)
  | CycleInput.page slots =>
    let r := processSlots tz outcome now slots st
    ({ r.1 with cache := clearCache r.1.cache now }, ⟨[45], 0, true, r.2, true⟩)

/-- The whole poll loop over a stream of cycle inputs with their
fetch times: total, so the loop has a well-defined state after any
finite number of cycles — no input terminates it. -/
def runLoop (tz : Int) (outcome : Int → SendResult) :
    List (CycleInput × Int) → BotState → BotState
  | [], st => st
  | (input, now) :: rest, st => runLoop tz outcome rest (parseCycle tz outcome now input st).1

/-- The cache-affecting events of an execution, for the deduplication
property: a `__send_message` call for a slot message at a wall-clock
second, or a `__clear_cache` pass at a wall-clock second.  (Within
`__parse`, every cycle issues its sends and then one clear, with
non-decreasing clock reads; the theorems quantify over all such
monotone event sequences.) -/
inductive BotEvent
  | send (msg : String) (now : Int)
  | clear (now : Int)
deriving DecidableEq, Repr

/-- The wall-clock second of an event. -/
def eventTime : BotEvent → Int
  | BotEvent.send _ now => now
  | BotEvent.clear now => now

/-- Run a sequence of cache events, recording each message that was
actually fanned out together with the second it happened. -/
def runEvents (tz : Int) (outcome : Int → SendResult) :
    List BotEvent → BotState → BotState × List (String × Int)
  | [], st => (st, [])
  | BotEvent.send msg now :: rest, st =>
    let out := sendMessage tz outcome now st msg
    let r := runEvents tz outcome rest out.state
    (r.1, match out.fanout with
          | some _ => (msg, now) :: r.2
          | none => r.2)
  | BotEvent.clear now :: rest, st =>
    runEvents tz outcome rest { st with cache := clearCache st.cache now }

/-- The chats a trace attempted delivery to, in order. -/
def attemptsOf (tr : List Action) : List Int :=
  tr.filterMap (fun a => match a with
    | Action.attempt c => some c
    | _ => none)

/-! Helper lemmas about the embedded operations. -/

theorem msgInCache_eq_true_iff (cache : List Message) (msg : String) :
    msgInCache cache msg = true ↔ ∃ m ∈ cache, m.message = msg := by
  induction cache with
  | nil => simp [msgInCache]
  | cons m rest ih =>
    by_cases h : m.message = msg
    · simp [msgInCache, h]
    · simp [msgInCache, h, ih]

theorem msgInCache_append (c₁ c₂ : List Message) (msg : String) :
    msgInCache (c₁ ++ c₂) msg = (msgInCache c₁ msg || msgInCache c₂ msg) := by
  induction c₁ with
  | nil => simp [msgInCache]
  | cons m rest ih =>
    by_cases h : m.message = msg <;> simp [msgInCache, h, ih]

theorem clearCache_eq_filter (cache : List Message) (now : Int) :
    clearCache cache now = cache.filter (fun m => now - m.ts < 300) := by
  cases cache <;> simp [clearCache]

theorem sendLoop_cache (outcome : Int → SendResult) (iter : List Int) (st : BotState) :
    (sendLoop outcome iter st).1.cache = st.cache := by
  induction iter generalizing st with
  | nil => rfl
  | cons c rest ih =>
    cases h : outcome c <;>
      simp [sendLoop, h, ih, removeChat, persistChats]

theorem sendLoop_chats (outcome : Int → SendResult) (iter : List Int) (st : BotState) :
    (sendLoop outcome iter st).1.chats
      = st.chats.filter
          (fun x => !(iter.contains x && (outcome x == SendResult.errBlocked))) := by
  induction iter generalizing st with
  | nil => simp [sendLoop]
  | cons c rest ih =>
    cases h : outcome c with
    | errBlocked =>
      rw [sendLoop]
      simp only [h]
      rw [ih]
      simp only [removeChat, persistChats]
      rw [List.filter_filter]
      refine List.filter_congr ?_
      intro x hx
      by_cases hxc : x = c
      · subst hxc; simp [h]
      · simp [hxc, h, List.contains_cons]
    | ok =>
      rw [sendLoop]
      simp only [h]
      rw [ih]
      refine List.filter_congr ?_
      intro x hx
      by_cases hxc : x = c
      · subst hxc; simp [h]
      · simp [hxc, List.contains_cons]
    | errOther =>
      rw [sendLoop]
      simp only [h]
      rw [ih]
      refine List.filter_congr ?_
      intro x hx
      by_cases hxc : x = c
      · subst hxc; simp [h]
      · simp [hxc, List.contains_cons]

theorem attemptsOf_sendLoop (outcome : Int → SendResult) (iter : List Int) (st : BotState) :
    attemptsOf (sendLoop outcome iter st).2 = iter := by
  induction iter generalizing st with
  | nil => rfl
  | cons c rest ih =>
    cases h : outcome c <;> simp [sendLoop, h, attemptsOf, ih] <;>
      simpa [attemptsOf] using ih _

theorem sendMessage_of_cached (tz : Int) (outcome : Int → SendResult) (now : Int)
    (st : BotState) (msg : String) (h : msgInCache st.cache msg = true) :
    sendMessage tz outcome now st msg = ⟨st, [], none⟩ := by
  simp [sendMessage, h]

theorem sendMessage_cache_of_uncached (tz : Int) (outcome : Int → SendResult) (now : Int)
    (st : BotState) (msg : String) (h : msgInCache st.cache msg = false) :
    (sendMessage tz outcome now st msg).state.cache = st.cache ++ [⟨msg, now⟩] := by
  cases hd : dateFromMsg tz msg <;>
    simp [sendMessage, h, hd, addMsgToCache, sendLoop_cache]

theorem sendMessage_chats_of_uncached (tz : Int) (outcome : Int → SendResult) (now : Int)
    (st : BotState) (msg : String) (h : msgInCache st.cache msg = false)
    (d : String) (hd : dateFromMsg tz msg = some d) :
    (sendMessage tz outcome now st msg).fanout = some (msg, st.chats) := by
  simp [sendMessage, h, hd]

theorem runEvents_nil (tz : Int) (outcome : Int → SendResult) (st : BotState) :
    runEvents tz outcome [] st = (st, []) := rfl

theorem runEvents_cons_send (tz : Int) (outcome : Int → SendResult)
    (msg : String) (now : Int) (rest : List BotEvent) (st : BotState) :
    (runEvents tz outcome (BotEvent.send msg now :: rest) st).2
      = (match (sendMessage tz outcome now st msg).fanout with
         | some _ =>
           (msg, now) :: (runEvents tz outcome rest (sendMessage tz outcome now st msg).state).2
         | none => (runEvents tz outcome rest (sendMessage tz outcome now st msg).state).2) := rfl

theorem runEvents_cons_clear (tz : Int) (outcome : Int → SendResult)
    (now : Int) (rest : List BotEvent) (st : BotState) :
    runEvents tz outcome (BotEvent.clear now :: rest) st
      = runEvents tz outcome rest { st with cache := clearCache st.cache now } := rfl

theorem runEvents_time_lb (tz : Int) (outcome : Int → SendResult) :
    ∀ (events : List BotEvent) (st : BotState) (T : Int),
    (∀ e ∈ events, T ≤ eventTime e) →
    ∀ d ∈ (runEvents tz outcome events st).2, T ≤ d.2 := by
  intro events
  induction events with
  | nil => intro st T _ d hd; simp [runEvents_nil] at hd
  | cons e rest ih =>
    intro st T hT d hd
    cases e with
    | send msg now =>
      rw [runEvents_cons_send] at hd
      cases hf : (sendMessage tz outcome now st msg).fanout with
      | some f =>
        rw [hf] at hd
        rcases List.mem_cons.mp hd with rfl | hd'
        · simpa using hT (BotEvent.send msg now) (List.mem_cons_self _ _)
        · exact ih _ T (fun e he => hT e (List.mem_cons_of_mem _ he)) d hd'
      | none =>
        rw [hf] at hd
        exact ih _ T (fun e he => hT e (List.mem_cons_of_mem _ he)) d hd
    | clear now =>
      rw [runEvents_cons_clear] at hd
      exact ih _ T (fun e he => hT e (List.mem_cons_of_mem _ he)) d hd

theorem runEvents_entry_sep (tz : Int) (outcome : Int → SendResult) :
    ∀ (events : List BotEvent) (st : BotState) (msg : String) (t : Int),
    List.Pairwise (fun a b => eventTime a ≤ eventTime b) events →
    (⟨msg, t⟩ : Message) ∈ st.cache →
    ∀ d ∈ (runEvents tz outcome events st).2, d.1 = msg → t + 300 ≤ d.2 := by
  intro events
  induction events with
  | nil => intro st msg t _ _ d hd; simp [runEvents_nil] at hd
  | cons e rest ih =>
    intro st msg t hpw hmem d hd hdm
    cases e with
    | clear now =>
      rw [runEvents_cons_clear] at hd
      by_cases hcl : t + 300 ≤ now
      · refine le_trans hcl (runEvents_time_lb tz outcome rest _ now ?_ d hd)
        intro e he
        exact (List.pairwise_cons.mp hpw).1 e he
      · have hmem' : (⟨msg, t⟩ : Message) ∈ clearCache st.cache now := by
          rw [clearCache_eq_filter, List.mem_filter]
          refine ⟨hmem, ?_⟩
          simp only [decide_eq_true_eq]
          omega
        exact ih _ msg t (List.pairwise_cons.mp hpw).2 hmem' d hd hdm
    | send msg' now =>
      rw [runEvents_cons_send] at hd
      by_cases hc : msgInCache st.cache msg' = true
      · rw [sendMessage_of_cached tz outcome now st msg' hc] at hd
        exact ih _ msg t (List.pairwise_cons.mp hpw).2 hmem d hd hdm
      · have hcF : msgInCache st.cache msg' = false := by
          simpa using hc
        have hne : msg' ≠ msg := by
          intro hEq
          subst hEq
          have : msgInCache st.cache msg' = true :=
            (msgInCache_eq_true_iff _ _).mpr ⟨⟨msg', t⟩, hmem, rfl⟩
          rw [hcF] at this
          exact Bool.false_ne_true this
        have hmem1 : (⟨msg, t⟩ : Message) ∈ (sendMessage tz outcome now st msg').state.cache := by
          rw [sendMessage_cache_of_uncached tz outcome now st msg' hcF]
          exact List.mem_append_left _ hmem
        cases hf : (sendMessage tz outcome now st msg').fanout with
        | some f =>
          rw [hf] at hd
          rcases List.mem_cons.mp hd with rfl | hd'
          · exact absurd hdm hne
          · exact ih _ msg t (List.pairwise_cons.mp hpw).2 hmem1 d hd' hdm
        | none =>
          rw [hf] at hd
          exact ih _ msg t (List.pairwise_cons.mp hpw).2 hmem1 d hd hdm

theorem runEvents_pairwise (tz : Int) (outcome : Int → SendResult) :
    ∀ (events : List BotEvent) (st : BotState),
    List.Pairwise (fun a b => eventTime a ≤ eventTime b) events →
    List.Pairwise (fun a b => a.1 = b.1 → a.2 + 300 ≤ b.2) (runEvents tz outcome events st).2 := by
  intro events
  induction events with
  | nil => intro st _; simp [runEvents_nil]
  | cons e rest ih =>
    intro st hpw
    cases e with
    | clear now =>
      rw [runEvents_cons_clear]
      exact ih _ (List.pairwise_cons.mp hpw).2
    | send msg now =>
      rw [runEvents_cons_send]
      by_cases hc : msgInCache st.cache msg = true
      · rw [sendMessage_of_cached tz outcome now st msg hc]
        exact ih _ (List.pairwise_cons.mp hpw).2
      · have hcF : msgInCache st.cache msg = false := by
          simpa using hc
        cases hf : (sendMessage tz outcome now st msg).fanout with
        | none =>
          exact ih _ (List.pairwise_cons.mp hpw).2
        | some f =>
          refine List.pairwise_cons.mpr ⟨?_, ih _ (List.pairwise_cons.mp hpw).2⟩
          intro d hd hdm
          have hmem1 : (⟨msg, now⟩ : Message) ∈ (sendMessage tz outcome now st msg).state.cache := by
            rw [sendMessage_cache_of_uncached tz outcome now st msg hcF]
            exact List.mem_append_right _ (by simp)
          exact runEvents_entry_sep tz outcome rest _ msg now
            (List.pairwise_cons.mp hpw).2 hmem1 d hd hdm.symm

theorem runLoop_append (tz : Int) (outcome : Int → SendResult)
    (xs ys : List (CycleInput × Int)) (st : BotState) :
    runLoop tz outcome (xs ++ ys) st = runLoop tz outcome ys (runLoop tz outcome xs st) := by
  induction xs generalizing st with
  | nil => rfl
  | cons x rest ih => cases x; simp [runLoop, ih]

end Burgerbot

open Burgerbot

/-- C7: a cache-clear pass at time `now` keeps exactly the entries
with `now - ts < 300` and removes exactly those with
`now - ts ≥ 300`: membership in the cleared cache is equivalent to
prior membership together with being strictly younger than 300
seconds — hence no surviving entry is at least 300 seconds old. -/
theorem c7_clear_cache_exact : ∀ (cache : List Message) (now : Int) (m : Message),
    m ∈ clearCache cache now ↔ (m ∈ cache ∧ now - m.ts < 300) := by
  intro cache now m
  rw [clearCache_eq_filter, List.mem_filter]
  simp

/-- C4: in a poll-loop iteration whose fetch returns HTTP 429, the
loop sleeps 300 seconds (≥ 300), toggles the proxy flag before the
next fetch, and invokes neither the extractor, nor the notifier, nor
the cache-expiry pass. -/
theorem c4_rate_limit_cycle : ∀ (tz : Int) (outcome : Int → SendResult) (now : Int)
    (st : BotState),
    (parseCycle tz outcome now CycleInput.rateLimited st).1.proxyOn = !st.proxyOn
    ∧ (parseCycle tz outcome now CycleInput.rateLimited st).2.sleeps = [300]
    ∧ (parseCycle tz outcome now CycleInput.rateLimited st).2.toggles = 1
    ∧ (parseCycle tz outcome now CycleInput.rateLimited st).2.extracted = false
    ∧ (parseCycle tz outcome now CycleInput.rateLimited st).2.fanouts = []
    ∧ (parseCycle tz outcome now CycleInput.rateLimited st).2.cleared = false := by
  intro tz outcome now st
  simp [parseCycle, toggleProxy]

/-- C8: `__add_chat` and `__remove_chat` preserve freedom from
duplicates of the subscriber list. -/
theorem c8_no_duplicate_subscribers : ∀ (st : BotState) (c : Int),
    st.chats.Nodup → ((addChat st c).chats.Nodup ∧ (removeChat st c).chats.Nodup) := by
  intro st c h
  constructor
  · by_cases hc : c ∈ st.chats
    · simpa [addChat, hc] using h
    · simp [addChat, hc, persistChats, List.nodup_append, h]
  · simp only [removeChat, persistChats]
    exact h.filter _

/-- C8 witness: a concrete duplicate-free registry stays
duplicate-free under an add and a remove. -/
theorem c8_no_duplicate_subscribers_witness :
    (addChat ⟨[1, 2], [1, 2], 0, [], false⟩ 3).chats.Nodup
    ∧ (removeChat ⟨[1, 2], [1, 2], 0, [], false⟩ 2).chats.Nodup :=
  c8_no_duplicate_subscribers ⟨[1, 2], [1, 2], 0, [], false⟩ 3 (by decide)
    |>.imp (fun h => h) (fun _ => (c8_no_duplicate_subscribers ⟨[1, 2], [1, 2], 0, [], false⟩ 2 (by decide)).2)

/-- C9: writing the subscriber store and reading it back restores the
written subscriber list; in particular, after an add performed on a
state whose store is in sync with memory, a reload at startup yields
the same subscriber set as the in-memory one (order-insensitively,
here even as an equal list). -/
theorem c9_persist_roundtrip : ∀ (st : BotState) (c : Int),
    ((getChats (persistChats st)).chats = st.chats)
    ∧ (st.store = st.chats →
        (getChats (addChat st c)).chats = (addChat st c).chats
        ∧ ∀ x : Int, x ∈ (getChats (addChat st c)).chats ↔ x ∈ (addChat st c).chats) := by
  intro st c
  refine ⟨rfl, fun hsync => ?_⟩
  by_cases hc : c ∈ st.chats
  · exact ⟨by simp [addChat, hc, getChats, hsync], fun x => by simp [addChat, hc, getChats, hsync]⟩
  · exact ⟨by simp [addChat, hc, getChats, persistChats], fun x => by simp [addChat, hc, getChats, persistChats]⟩

/-- C9 witness: round-trip on a concrete state and add. -/
theorem c9_persist_roundtrip_witness :
    ((getChats (persistChats ⟨[5, 7], [], 0, [], false⟩)).chats = [5, 7])
    ∧ ((getChats (addChat ⟨[5, 7], [5, 7], 0, [], false⟩ 9)).chats
        = (addChat ⟨[5, 7], [5, 7], 0, [], false⟩ 9).chats) :=
  ⟨(c9_persist_roundtrip ⟨[5, 7], [], 0, [], false⟩ 0).1,
   ((c9_persist_roundtrip ⟨[5, 7], [5, 7], 0, [], false⟩ 9).2 (by decide)).1⟩

/-- C10: adding a chat identifier that is already subscribed is a
complete no-op — the state (in-memory list, persisted store, and
write count) is untouched, so the store file is not rewritten. -/
theorem c10_add_existing_noop : ∀ (st : BotState) (c : Int),
    c ∈ st.chats →
    (addChat st c = st
     ∧ (addChat st c).writes = st.writes
     ∧ (addChat st c).store = st.store) := by
  intro st c h
  simp [addChat, h]

/-- C10 witness: a concrete no-op add. -/
theorem c10_add_existing_noop_witness :
    addChat ⟨[4, 8], [4, 8], 3, [], false⟩ 8 = ⟨[4, 8], [4, 8], 3, [], false⟩ :=
  (c10_add_existing_noop ⟨[4, 8], [4, 8], 3, [], false⟩ 8 (by decide)).1

/-- C1: over any sequence of `__send_message` and `__clear_cache`
events with non-decreasing wall-clock times, any two actual
notifications of the same slot identifier are at least 300 seconds
apart — once delivery was performed (or attempted) for an
identifier, later sends of the same identifier within 300 seconds
return without sending; and once every cached entry of an identifier
is at least 300 seconds old, a cache-clear pass evicts it, after
which a send for it fans out again. -/
theorem c1_no_renotify_within_window :
    (∀ (tz : Int) (outcome : Int → SendResult) (events : List BotEvent) (st : BotState),
      List.Pairwise (fun a b => eventTime a ≤ eventTime b) events →
      List.Pairwise (fun a b => a.1 = b.1 → a.2 + 300 ≤ b.2) (runEvents tz outcome events st).2)
    ∧ (∀ (cache : List Message) (now : Int) (msg : String),
      (∀ m ∈ cache, m.message = msg → m.ts + 300 ≤ now) →
      msgInCache (clearCache cache now) msg = false)
    ∧ (∀ (tz : Int) (outcome : Int → SendResult) (cache : List Message) (now now' : Int)
        (st : BotState) (msg d : String),
      (∀ m ∈ cache, m.message = msg → m.ts + 300 ≤ now) →
      st.cache = clearCache cache now →
      dateFromMsg tz msg = some d →
      (sendMessage tz outcome now' st msg).fanout = some (msg, st.chats)) := by
  have hclear : ∀ (cache : List Message) (now : Int) (msg : String),
      (∀ m ∈ cache, m.message = msg → m.ts + 300 ≤ now) →
      msgInCache (clearCache cache now) msg = false := by
    intro cache now msg h
    by_contra hcon
    rw [Bool.not_eq_false] at hcon
    obtain ⟨m, hm, hmsg⟩ := (msgInCache_eq_true_iff _ _).mp hcon
    rw [clearCache_eq_filter, List.mem_filter] at hm
    have h1 := h m hm.1 hmsg
    have h2 := hm.2
    simp only [decide_eq_true_eq] at h2
    omega
  refine ⟨runEvents_pairwise, hclear, ?_⟩
  intro tz outcome cache now now' st msg d h hcache hd
  have hF : msgInCache st.cache msg = false := by
    rw [hcache]
    exact hclear cache now msg h
  exact sendMessage_chats_of_uncached tz outcome now' st msg hF d hd

/-- C1 witness: a trace that sends an identifier at second 0,
re-observes it at second 10 (suppressed), clears at second 400
(evicting it), and re-sends at second 401; its two deliveries are
300 seconds apart, the clear pass evicts the entry, and the send
after the clear fans out. -/
theorem c1_no_renotify_within_window_witness :
    List.Pairwise (fun a b => a.1 = b.1 → a.2 + 300 ≤ b.2)
      (runEvents 0 (fun _ => SendResult.ok)
        [BotEvent.send "a/1700000000/x" 0, BotEvent.send "a/1700000000/x" 10,
         BotEvent.clear 400, BotEvent.send "a/1700000000/x" 401]
        ⟨[1], [1], 0, [], false⟩).2
    ∧ msgInCache (clearCache [⟨"a/1700000000/x", 0⟩] 300) "a/1700000000/x" = false
    ∧ (sendMessage 0 (fun _ => SendResult.ok) 500
        ⟨[1], [1], 0, [], false⟩ "a/1700000000/x").fanout = some ("a/1700000000/x", [1]) :=
  ⟨c1_no_renotify_within_window.1 0 (fun _ => SendResult.ok)
      [BotEvent.send "a/1700000000/x" 0, BotEvent.send "a/1700000000/x" 10,
       BotEvent.clear 400, BotEvent.send "a/1700000000/x" 401]
      ⟨[1], [1], 0, [], false⟩ (by decide),
   c1_no_renotify_within_window.2.1 [⟨"a/1700000000/x", 0⟩] 300 "a/1700000000/x" (by decide),
   c1_no_renotify_within_window.2.2 0 (fun _ => SendResult.ok) [⟨"a/1700000000/x", 0⟩] 300 500
      ⟨[1], [1], 0, [], false⟩ "a/1700000000/x" "15 November" (by decide) (by decide) (by decide)⟩

/-- C6: an exception escaping the `try` body of a poll cycle other
than through the handled 429 branch or the per-slot handler — an
exception during the fetch or anywhere else in the body — is caught
at the top of the loop, followed by exactly one proxy toggle and the
normal 45-second sleep; per-slot notification errors toggle nothing;
and the loop is total over any stream of cycle inputs: after any
prefix of cycles it keeps processing the remaining ones, so no
exception terminates it. -/
theorem c6_exception_handling :
    (∀ (tz : Int) (outcome : Int → SendResult) (now : Int) (st : BotState) (input : CycleInput),
      (input = CycleInput.fetchRaise ∨ input = CycleInput.parseRaise) →
      (parseCycle tz outcome now input st).2.toggles = 1
      ∧ (parseCycle tz outcome now input st).2.sleeps = [45]
      ∧ (parseCycle tz outcome now input st).1.proxyOn = !st.proxyOn)
    ∧ (∀ (tz : Int) (outcome : Int → SendResult) (now : Int) (st : BotState)
        (slots : List SlotItem),
      (parseCycle tz outcome now (CycleInput.page slots) st).2.toggles = 0
      ∧ (parseCycle tz outcome now (CycleInput.page slots) st).2.sleeps = [45])
    ∧ (∀ (tz : Int) (outcome : Int → SendResult) (xs ys : List (CycleInput × Int))
        (st : BotState),
      runLoop tz outcome (xs ++ ys) st = runLoop tz outcome ys (runLoop tz outcome xs st)) := by
  refine ⟨?_, ?_, ?_⟩
  · rintro tz outcome now st input (rfl | rfl) <;> simp [parseCycle, toggleProxy]
  · intro tz outcome now st slots
    simp [parseCycle]
  · intro tz outcome xs ys st
    exact runLoop_append tz outcome xs ys st

/-- C6 witness: a concrete cycle hit by a fetch exception toggles
the proxy once and sleeps 45 seconds. -/
theorem c6_exception_handling_witness :
    (parseCycle 0 (fun _ => SendResult.ok) 7 CycleInput.fetchRaise
        ⟨[1], [1], 0, [], false⟩).2.toggles = 1
    ∧ (parseCycle 0 (fun _ => SendResult.ok) 7 CycleInput.fetchRaise
        ⟨[1], [1], 0, [], false⟩).2.sleeps = [45]
    ∧ (parseCycle 0 (fun _ => SendResult.ok) 7 CycleInput.fetchRaise
        ⟨[1], [1], 0, [], false⟩).1.proxyOn = !false :=
  c6_exception_handling.1 0 (fun _ => SendResult.ok) 7 ⟨[1], [1], 0, [], false⟩
    CycleInput.fetchRaise (Or.inl rfl)

/-- C2 counterexample: `__date_from_msg` renders the instant with
`datetime.fromtimestamp`, which uses the host's local timezone, not
UTC.  In a UTC−12 environment (offset −43200 s) the identifier
segment `1700000000` renders as "14 November", whereas the
day-and-month of epoch 1700007200 in UTC is "15 November". -/
theorem c2_local_timezone_counterexample :
    dateFromMsg (-43200) "dummy/1700000000/tag" = some "14 November"
    ∧ strftimeDayMonth (1700000000 + 7200) = "15 November"
    ∧ dateFromMsg (-43200) "dummy/1700000000/tag"
        ≠ some (strftimeDayMonth (1700000000 + 7200)) :=
  ⟨by decide, by decide, by decide⟩

/-- C2 (amended): for every identifier whose slash-delimited path
has an integer `n` where the code reads the second-to-last segment,
`__date_from_msg` adds exactly 7200 seconds to `n` and formats the
resulting instant as day-and-month in the process's local timezone
(offset `tz` seconds east of UTC) — which agrees with UTC exactly
when that offset is 0, as in the UTC-hosted deployment; under offset
0, segment `1700000000` yields the day-and-month of epoch 1700007200
in UTC. -/
theorem c2_date_derivation_amended : ∀ (tz n : Int) (msg : String),
    pyInt ((splitSlash msg.data).getD ((splitSlash msg.data).length - 2) []) = some n →
    dateFromMsg tz msg = some (strftimeDayMonth (n + 7200 + tz)) := by
  intro tz n msg h
  simp only [dateFromMsg]
  rw [h]

/-- C2 witness: with a UTC local timezone, the example identifier
renders the UTC day-and-month of epoch 1700007200. -/
theorem c2_date_derivation_amended_witness :
    dateFromMsg 0 "dummy/1700000000/tag"
      = some (strftimeDayMonth (1700000000 + 7200 + 0)) :=
  c2_date_derivation_amended 0 1700000000 "dummy/1700000000/tag" (by decide)

/-- C3: for an uncached identifier, `__send_message` appends it to
the cache before attempting any delivery (the cache append is the
first effect of the trace, and the identifier is cached afterwards
for every pattern of delivery outcomes, including all-failing ones);
consequently, on a page carrying one cached and one uncached
identifier — in either order — exactly one fan-out happens, for the
uncached identifier, addressed to the full subscriber list. -/
theorem c3_cache_before_delivery :
    (∀ (tz : Int) (outcome : Int → SendResult) (now : Int) (st : BotState) (msg : String),
      msgInCache st.cache msg = false →
      msgInCache (sendMessage tz outcome now st msg).state.cache msg = true
      ∧ (sendMessage tz outcome now st msg).trace.head? = some (Action.cacheAdd msg now))
    ∧ (∀ (tz : Int) (outcome : Int → SendResult) (now : Int) (st : BotState) (m₁ m₂ : String),
      msgInCache st.cache m₁ = false →
      msgInCache st.cache m₂ = true →
      (dateFromMsg tz m₁).isSome →
      (processSlots tz outcome now [SlotItem.good m₁, SlotItem.good m₂] st).2 = [(m₁, st.chats)]
      ∧ (processSlots tz outcome now [SlotItem.good m₂, SlotItem.good m₁] st).2 = [(m₁, st.chats)]) := by
  constructor
  · intro tz outcome now st msg h
    constructor
    · rw [sendMessage_cache_of_uncached tz outcome now st msg h]
      simp [msgInCache_append, msgInCache]
    · cases hd : dateFromMsg tz msg <;> simp [sendMessage, h, hd]
  · intro tz outcome now st m₁ m₂ h1 h2 hd
    cases hdm : dateFromMsg tz m₁ with
    | none => rw [hdm] at hd; simp at hd
    | some d =>
      constructor
      · simp [processSlots, sendMessage, h1, h2, hdm, sendLoop_cache,
              addMsgToCache, msgInCache_append]
      · simp [processSlots, sendMessage, h1, h2, hdm, sendLoop_cache,
              addMsgToCache, msgInCache_append]

/-- C3 witness: a concrete state with one cached and one uncached
identifier, where every delivery fails with a non-blocked error. -/
theorem c3_cache_before_delivery_witness :
    (msgInCache (sendMessage 0 (fun _ => SendResult.errOther) 50
        ⟨[1], [1], 0, [⟨"b", 0⟩], false⟩ "a/1700000000/x").state.cache "a/1700000000/x" = true
     ∧ (sendMessage 0 (fun _ => SendResult.errOther) 50
        ⟨[1], [1], 0, [⟨"b", 0⟩], false⟩ "a/1700000000/x").trace.head?
          = some (Action.cacheAdd "a/1700000000/x" 50))
    ∧ (processSlots 0 (fun _ => SendResult.errOther) 50
        [SlotItem.good "a/1700000000/x", SlotItem.good "b"]
        ⟨[1], [1], 0, [⟨"b", 0⟩], false⟩).2 = [("a/1700000000/x", [1])] :=
  ⟨c3_cache_before_delivery.1 0 (fun _ => SendResult.errOther) 50
      ⟨[1], [1], 0, [⟨"b", 0⟩], false⟩ "a/1700000000/x" (by decide),
   (c3_cache_before_delivery.2 0 (fun _ => SendResult.errOther) 50
      ⟨[1], [1], 0, [⟨"b", 0⟩], false⟩ "a/1700000000/x" "b"
      (by decide) (by decide) (by decide)).1⟩

/-- C5: fanning a notification out to the subscriber list of size N
of which exactly M fail with the "blocked by the user" error leaves
the registry with exactly N − M subscribers; if no failure is of the
blocked kind the registry is unchanged; and delivery is attempted to
every subscriber of the frozen list regardless of earlier failures
(no per-subscriber failure aborts the fan-out). -/
theorem c5_blocked_removal : ∀ (outcome : Int → SendResult) (st : BotState),
    ((sendLoop outcome st.chats st).1.chats.length
      = st.chats.length
        - (st.chats.filter (fun c => outcome c == SendResult.errBlocked)).length)
    ∧ ((∀ c ∈ st.chats, outcome c ≠ SendResult.errBlocked) →
        (sendLoop outcome st.chats st).1.chats = st.chats)
    ∧ attemptsOf (sendLoop outcome st.chats st).2 = st.chats := by
  intro outcome st
  have hchats : (sendLoop outcome st.chats st).1.chats
      = st.chats.filter (fun x => !(outcome x == SendResult.errBlocked)) := by
    rw [sendLoop_chats]
    refine List.filter_congr ?_
    intro x hx
    simp [List.contains, List.elem_eq_mem, hx]
  refine ⟨?_, ?_, attemptsOf_sendLoop _ _ _⟩
  · rw [hchats]
    have h := List.length_eq_length_filter_add
      (l := st.chats) (fun c => outcome c == SendResult.errBlocked)
    omega
  · intro hnone
    rw [hchats]
    refine List.filter_eq_self.mpr ?_
    intro a ha
    simpa using hnone a ha

/-- C5 witness: three subscribers of which exactly one blocks the
bot: two remain, every delivery is attempted. -/
theorem c5_blocked_removal_witness :
    ((sendLoop (fun c => if c = 2 then SendResult.errBlocked else SendResult.errOther)
        [1, 2, 3] ⟨[1, 2, 3], [1, 2, 3], 0, [], false⟩).1.chats.length = 3 - 1)
    ∧ ((sendLoop (fun _ => SendResult.errOther)
        [1, 2, 3] ⟨[1, 2, 3], [1, 2, 3], 0, [], false⟩).1.chats = [1, 2, 3])
    ∧ attemptsOf (sendLoop (fun c => if c = 2 then SendResult.errBlocked else SendResult.errOther)
        [1, 2, 3] ⟨[1, 2, 3], [1, 2, 3], 0, [], false⟩).2 = [1, 2, 3] := by
  refine ⟨?_, ?_, ?_⟩
  · have h := (c5_blocked_removal
      (fun c => if c = 2 then SendResult.errBlocked else SendResult.errOther)
      ⟨[1, 2, 3], [1, 2, 3], 0, [], false⟩).1
    simpa using h
  · exact (c5_blocked_removal (fun _ => SendResult.errOther)
      ⟨[1, 2, 3], [1, 2, 3], 0, [], false⟩).2.1 (by decide)
  · exact (c5_blocked_removal
      (fun c => if c = 2 then SendResult.errBlocked else SendResult.errOther)
      ⟨[1, 2, 3], [1, 2, 3], 0, [], false⟩).2.2
